import Mathlib

/-!
Verification development for `openpifpaf/network/trainer.py` (class `Trainer`).

Shallow embedding: model parameters, EMA shadow entries and loss values are
rationals (exact arithmetic stands in for the bit-exact tensor copies and the
field operations of the source).  External collaborators — the model's forward
pass, the optimizer's parameter update, the per-head loss functors — are opaque
parameters, exactly as the source treats them as black boxes.  In-place tensor
mutation (`p.data.copy_`, `ema_p.mul_(..).add_(..)`) becomes pure state passing
on a `Trainer` record.  Python `assert` / `ZeroDivisionError` become `Except`.
-/

/-- State of `Trainer` (constructor lines 10–37 of trainer.py), restricted to
the fields the verified claims touch.  `params` models the ordered sequence
`[p.data for p in self.model.parameters()]`; `hasScheduler` models
`self.lr_scheduler is not None` and `schedulerSteps` counts the
`lr_scheduler.step()` calls issued so far. -/
structure Trainer where
  params : List ℚ
  lambdas : List ℚ
  emaDecay : Option ℚ
  ema : Option (List ℚ)
  ema_restore_params : Option (List ℚ)
  stride_apply : Nat
  hasScheduler : Bool
  schedulerSteps : Nat
deriving DecidableEq, Repr

/-- Python truthiness of `self.ema_decay` (used at line 206:
`if self.ema is None and self.ema_decay:`): `None` and `0.0` are falsy. -/
def emaDecayTruthy (t : Trainer) : Bool :=
  match t.emaDecay with
  | none => false
  | some d => decide (d ≠ 0)

/-- `for p, q in zip(ps, qs): p.data.copy_(q)` — overwrite the entries of `ps`
by those of `qs`, truncating at the shorter list exactly as Python's `zip`
does; entries of `ps` beyond `qs.length` keep their value. -/
def copy_into : List ℚ → List ℚ → List ℚ
  | ps, [] => ps
  | [], _ => []
  | _ :: ps, e :: es => e :: copy_into ps es

/-- `Trainer.step_ema` (lines 59–64): no-op when the shadow is unset, else
each shadow entry becomes `ema_p * (1 - decay) + decay * p`.  (In the source
`self.ema_decay` is necessarily set whenever `self.ema` is set — the shadow is
only ever seeded under `if self.ema_decay:` — so the `getD 0` default is never
reached on reachable states.) -/
def Trainer.step_ema (t : Trainer) : Trainer :=
  match t.ema with
  | none => t
  | some es =>
      { t with ema := some ((t.params.zip es).map
          (fun pe => pe.2 * (1 - t.emaDecay.getD 0) + t.emaDecay.getD 0 * pe.1)) }

/-- `Trainer.apply_ema` (lines 66–74): no-op when the shadow is unset, else
deep-copy the live parameters into the restore buffer, then overwrite each
parameter with its shadow entry. -/
def Trainer.apply_ema (t : Trainer) : Trainer :=
  match t.ema with
  | none => t
  | some es =>
      { t with ema_restore_params := some t.params,
               params := copy_into t.params es }

/-- `Trainer.ema_restore` (lines 76–83): no-op when the restore buffer is
unset, else copy the buffered values back into the parameters and clear the
buffer. -/
def Trainer.ema_restore (t : Trainer) : Trainer :=
  match t.ema_restore_params with
  | none => t
  | some rs =>
      { t with params := copy_into t.params rs,
               ema_restore_params := none }

/-! ## Combined loss (`Trainer.loss`, lines 96–109) -/

/-- Three-way `zip(self.losses, outputs, targets)` (line 100), truncating at
the shortest list exactly as Python's `zip` does. -/
def zip3 {α β γ : Type} : List α → List β → List γ → List (α × β × γ)
  | a :: as, b :: bs, c :: cs => (a, b, c) :: zip3 as bs cs
  | _, _, _ => []

/-- `head_losses = [c for l, o, t in zip(self.losses, outputs, targets) for c in l(o, t)]`
(lines 99–101): apply each head's loss functor and flatten in head order. -/
def head_losses_of {α β : Type} (lossFns : List (α → β → List (Option ℚ)))
    (outputs : List α) (targets : List β) : List (Option ℚ) :=
  (zip3 lossFns outputs targets).flatMap (fun x => x.1 x.2.1 x.2.2)

/-- `loss_values = [lam * l for lam, l in zip(self.lambdas, head_losses) if l is not None]`
(lines 103–105). -/
def loss_values (lams : List ℚ) (hls : List (Option ℚ)) : List ℚ :=
  (lams.zip hls).filterMap (fun p => Option.map (fun l => p.1 * l) p.2)

/-- `loss = None; if loss_values: loss = sum(loss_values)` (lines 97, 106–107). -/
def total_loss (lams : List ℚ) (hls : List (Option ℚ)) : Option ℚ :=
  if loss_values lams hls = [] then none else some (loss_values lams hls).sum

/-- Modelled from the spec's words (§4.1): "Total loss = sum of
`lambda_i * head_loss_i` over all non-null entries; if all entries are null,
total loss is null."  Stated independently of the source's
filter-then-sum formulation, for comparison with `total_loss`. -/
def spec_total : List ℚ → List (Option ℚ) → Option ℚ
  | lam :: lams, some l :: hls => some (lam * l + (spec_total lams hls).getD 0)
  | _ :: lams, none :: hls => spec_total lams hls
  | _, _ => none

/-- `Trainer.loss` (lines 96–109).  The two Python `assert` statements become
`Except.error`; the per-head loss functors, the outputs and the targets are
opaque arguments exactly as in the source. -/
def Trainer.loss {α β : Type} (t : Trainer) (lossFns : List (α → β → List (Option ℚ)))
    (outputs : List α) (targets : List β) :
    Except String (Option ℚ × List (Option ℚ)) :=
  if lossFns.length = outputs.length then
    if t.lambdas.length = (head_losses_of lossFns outputs targets).length then
      Except.ok (total_loss t.lambdas (head_losses_of lossFns outputs targets),
                 head_losses_of lossFns outputs targets)
    else Except.error "AssertionError: len(self.lambdas) == len(head_losses)"
  else Except.error "AssertionError: len(self.losses) == len(outputs)"

/-- Concrete trainer for the C3 scenario: weights `[0.5, 1.0]`. -/
def trainerC3 : Trainer :=
  { params := [], lambdas := [1/2, 1], emaDecay := none, ema := none,
    ema_restore_params := none, stride_apply := 1, hasScheduler := false,
    schedulerSteps := 0 }

/-- Concrete trainer for the C6 counterexample: one weight. -/
def trainerC6 : Trainer :=
  { params := [], lambdas := [1], emaDecay := none, ema := none,
    ema_restore_params := none, stride_apply := 1, hasScheduler := false,
    schedulerSteps := 0 }

/-! ## EMA recurrence (`Trainer.step_ema`) -/

/-- The `i`-th EMA shadow entry (0 when the shadow is unset or `i` is out of
range). -/
def emaEntry (t : Trainer) (i : Nat) : ℚ := (t.ema.getD []).getD i 0

/-- The `i`-th model parameter (0 when `i` is out of range). -/
def paramEntry (t : Trainer) (i : Nat) : ℚ := t.params.getD i 0

/-- Concrete trainer for the C7 witness: one parameter `1`, shadow `[0]`,
decay `1/2`. -/
def trainerC7 : Trainer :=
  { params := [1], lambdas := [], emaDecay := some (1/2), ema := some [0],
    ema_restore_params := none, stride_apply := 1, hasScheduler := false,
    schedulerSteps := 0 }

/-- A trainer with the shadow unset, for the no-op part of the C7 witness. -/
def trainerC7b : Trainer :=
  { params := [1], lambdas := [], emaDecay := some (1/2), ema := none,
    ema_restore_params := none, stride_apply := 1, hasScheduler := false,
    schedulerSteps := 0 }

/-! ## Checkpoint path (`Trainer.write_model`, lines 244–264) -/

/-- Python `'{:03d}'.format(n)`: decimal, zero-padded on the left to width 3. -/
def format03d (n : Nat) : String :=
  if (toString n).length < 3 then
    String.mk (List.replicate (3 - (toString n).length) '0') ++ toString n
  else toString n

/-- Destination path selection of `Trainer.write_model` (lines 254–257):
the fixed output path when `final`, else that path suffixed with
`.epoch` and the zero-padded epoch number. -/
def write_model_filename (out : String) (epoch : Nat) (final : Bool) : String :=
  if final then out else out ++ (".epoch" ++ format03d epoch)

/-! ## Training batches, epoch loop and run loop (lines 85–94, 111–133, 150–242)

The model forward pass, the backward pass and the optimizer are opaque
collaborators: a batch's loss outcome (what `self.loss` returned for it) is
given as data, and `optStepF` is the optimizer's opaque parameter update.
Observable side effects onto those collaborators (optimizer step, gradient
zeroing, scheduler step, ...) are recorded as an event trace. -/

/-- One batch's loss outcome: the pair `(loss, head_losses)` that
`self.loss(outputs, targets)` returned for this batch. -/
abbrev BatchRes : Type := Option ℚ × List (Option ℚ)

/-- Observable events of an epoch / a run. `zeroGradInit` is the one
`optimizer.zero_grad()` issued before the batch loop (line 177); the indexed
events happen inside batch `i`. -/
inductive Ev where
  | schedStep
  | zeroGradInit
  | forward (i : Nat)
  | backward (i : Nat)
  | optStep (i : Nat)
  | zeroGrad (i : Nat)
  | stepEmaCall (i : Nat)
  | seedEma (i : Nat)
  | applyEmaEnd
deriving DecidableEq, Repr

/-- `Trainer.train_batch` (lines 111–133) on the tracked state: forward pass,
`loss.backward()` when the loss is non-null (observable only through events —
gradient buffers live in the opaque optimizer), and on `apply_gradients` the
optimizer step (opaque parameter update `optStepF`), gradient zeroing and
`step_ema`, in that order. -/
def Trainer.train_batch (t : Trainer) (optStepF : List ℚ → List ℚ)
    (idx : Nat) (res : BatchRes) (apply_gradients : Bool) : Trainer × List Ev :=
  let evs := Ev.forward idx :: (if (res.1).isSome then [Ev.backward idx] else [])
  if apply_gradients then
    (({ t with params := optStepF t.params }).step_ema,
      evs ++ [Ev.optStep idx, Ev.zeroGrad idx, Ev.stepEmaCall idx])
  else (t, evs)

/-- Per-head accumulation (lines 186–189): `head_epoch_losses[i] += head_loss`
skipping null entries.  In the source both lists always have length
`len(self.lambdas)` (asserted inside `loss`). -/
def accumulate : List ℚ → List (Option ℚ) → List ℚ
  | s :: ss, some h :: hs => (s + h) :: accumulate ss hs
  | s :: ss, none :: hs => s :: accumulate ss hs
  | ss, _ => ss

/-- Accumulator threaded through the batch loop of `Trainer.train`:
the trainer state, `epoch_loss`, `head_epoch_losses`, and the event trace. -/
structure EpochAcc where
  tr : Trainer
  epoch_loss : ℚ
  head_epoch_losses : List ℚ
  trace : List Ev

/-- The events batch `idx` contributes to the epoch trace: the `train_batch`
events followed, when the shadow is still unset and decay is configured
(line 206), by the EMA seeding. -/
def batch_events (optStepF : List ℚ → List ℚ) (tr : Trainer) (idx : Nat)
    (res : BatchRes) : List Ev :=
  let tb := tr.train_batch optStepF idx res (idx % tr.stride_apply == 0)
  tb.2 ++ (if (tb.1.ema).isNone && emaDecayTruthy tb.1 then [Ev.seedEma idx] else [])

/-- Body of the batch loop of `Trainer.train` (lines 178–209):
`apply_gradients = batch_idx % self.stride_apply == 0`, run the batch,
accumulate the returned losses into the running sums, and — after the batch —
seed the EMA shadow as a deep copy of the current parameters if it is unset
and decay is configured. -/
def train_loop_body (optStepF : List ℚ → List ℚ) (acc : EpochAcc) (idx : Nat)
    (res : BatchRes) : EpochAcc :=
  let tb := acc.tr.train_batch optStepF idx res (idx % acc.tr.stride_apply == 0)
  { tr := if (tb.1.ema).isNone && emaDecayTruthy tb.1 then
        { tb.1 with ema := some tb.1.params }
      else tb.1,
    epoch_loss := match res.1 with
      | some l => acc.epoch_loss + l
      | none => acc.epoch_loss,
    head_epoch_losses := accumulate acc.head_epoch_losses res.2,
    trace := acc.trace ++ batch_events optStepF acc.tr idx res }

/-- `for batch_idx, ... in enumerate(scenes)` (line 178). -/
def train_batches (optStepF : List ℚ → List ℚ) :
    EpochAcc → Nat → List BatchRes → EpochAcc
  | acc, _, [] => acc
  | acc, i, b :: bs =>
      train_batches optStepF (train_loop_body optStepF acc i b) (i + 1) bs

/-- `if self.lr_scheduler is not None: self.lr_scheduler.step()`
(lines 87–88 and 171–172). -/
def sched_step (t : Trainer) : Trainer × List Ev :=
  if t.hasScheduler then
    ({ t with schedulerSteps := t.schedulerSteps + 1 }, [Ev.schedStep])
  else (t, [])

/-- Start of `Trainer.train` before the batch loop (lines 150–177): restore a
pending EMA swap, unset the shadow, advance the scheduler once, zero the
gradient buffers.  (`model.train()` and the batch-norm freeze only mutate the
opaque model.) -/
def epoch_start (t : Trainer) : Trainer × List Ev :=
  let s := sched_step { t.ema_restore with ema := none }
  (s.1, s.2 ++ [Ev.zeroGradInit])

/-- The accumulator `Trainer.train` enters its batch loop with (lines 174–177):
the post-`epoch_start` trainer, zeroed running sums
(`head_epoch_losses = [0.0 for _ in self.lambdas]`) and the start-of-epoch
events. -/
def init_acc (t : Trainer) : EpochAcc :=
  { tr := (epoch_start t).1, epoch_loss := 0,
    head_epoch_losses := t.lambdas.map (fun _ => 0), trace := (epoch_start t).2 }

/-- `Trainer.train` (lines 150–218) over the tracked state; ends with
`apply_ema` (line 211).  The epoch-summary log record is modelled separately
(`train_summary`) because its computation can raise `ZeroDivisionError`. -/
def Trainer.train (t : Trainer) (optStepF : List ℚ → List ℚ)
    (scenes : List BatchRes) : EpochAcc :=
  let acc := train_batches optStepF (init_acc t) 0 scenes
  { acc with tr := acc.tr.apply_ema, trace := acc.trace ++ [Ev.applyEmaEnd] }

/-- Python float division with an integer denominator: raises
`ZeroDivisionError` when the denominator is zero. -/
def pydiv (a : ℚ) (n : Nat) : Except String ℚ :=
  if n = 0 then Except.error "ZeroDivisionError: float division by zero"
  else Except.ok (a / n)

/-- The means of the `train-epoch` summary record (lines 212–218):
`epoch_loss / len(scenes)` then `[l / len(scenes) for l in head_epoch_losses]`
(display rounding omitted). -/
def train_summary (acc : EpochAcc) (nBatches : Nat) : Except String (ℚ × List ℚ) :=
  match pydiv acc.epoch_loss nBatches with
  | Except.error e => Except.error e
  | Except.ok m =>
      match acc.head_epoch_losses.mapM (fun l => pydiv l nBatches) with
      | Except.error e => Except.error e
      | Except.ok hs => Except.ok (m, hs)

/-- The accumulation loop of `Trainer.val` (lines 224–233): same running sums,
no gradient step, no EMA. -/
def val_accum : ℚ × List ℚ → List BatchRes → ℚ × List ℚ
  | s, [] => s
  | (el, hs), b :: bs =>
      val_accum ((match b.1 with | some l => el + l | none => el),
        accumulate hs b.2) bs

/-- `Trainer.val` (lines 220–242): accumulate over the batches, then compute
the `val-epoch` summary record, whose means divide by `len(scenes)`. -/
def Trainer.val (t : Trainer) (scenes : List BatchRes) : Except String (ℚ × List ℚ) :=
  match pydiv (val_accum (0, t.lambdas.map (fun _ => 0)) scenes).1 scenes.length with
  | Except.error e => Except.error e
  | Except.ok m =>
      match (val_accum (0, t.lambdas.map (fun _ => 0)) scenes).2.mapM
          (fun l => pydiv l scenes.length) with
      | Except.error e => Except.error e
      | Except.ok hs => Except.ok (m, hs)

/-- `for _ in range(start_epoch): if self.lr_scheduler is not None:
self.lr_scheduler.step()` (lines 86–88). -/
def fast_forward : Trainer → Nat → Trainer × List Ev
  | t, 0 => (t, [])
  | t, n + 1 =>
      let s := sched_step t
      let r := fast_forward s.1 n
      (r.1, s.2 ++ r.2)

/-- The epoch iteration of `Trainer.loop` (lines 90–94) by remaining epoch
count: train, write the checkpoint, validate.  `write_model` and `val` leave
every tracked field unchanged (the first only moves the model across devices
and serializes, the second only reads), so only the training trace is
recorded. -/
def loop_epochs (optStepF : List ℚ → List ℚ) (scenes : List BatchRes) :
    Trainer → Nat → Trainer × List Ev
  | t, 0 => (t, [])
  | t, n + 1 =>
      let acc := t.train optStepF scenes
      let r := loop_epochs optStepF scenes acc.tr n
      (r.1, acc.trace ++ r.2)

/-- `Trainer.loop` (lines 85–94): fast-forward the scheduler by `start_epoch`
steps, then run `epochs - start_epoch` training epochs. -/
def Trainer.loop (t : Trainer) (optStepF : List ℚ → List ℚ)
    (scenes : List BatchRes) (epochs start_epoch : Nat) : Trainer × List Ev :=
  let f := fast_forward t start_epoch
  let r := loop_epochs optStepF scenes f.1 (epochs - start_epoch)
  (r.1, f.2 ++ r.2)

/-- Whether an event is the forward pass of a training batch. -/
def isForwardEv : Ev → Bool
  | Ev.forward _ => true
  | _ => false

/-- Number of scheduler steps issued before the first training batch of a
trace executes: `schedStep` events before the first `forward` event. -/
def sched_steps_before_first_batch (evs : List Ev) : Nat :=
  (evs.takeWhile (fun e => !isForwardEv e)).count Ev.schedStep

/-- Concrete trainer for C5: a scheduler is present, EMA disabled. -/
def trainerC5 : Trainer :=
  { params := [], lambdas := [], emaDecay := none, ema := none,
    ema_restore_params := none, stride_apply := 1, hasScheduler := true,
    schedulerSteps := 0 }

/-- Concrete trainer for the C8 witness: EMA decay 1, a pending shadow and
restore buffer from a previous epoch. -/
def trainerC8 : Trainer :=
  { params := [3], lambdas := [], emaDecay := some 1, ema := some [5],
    ema_restore_params := some [4], stride_apply := 2, hasScheduler := false,
    schedulerSteps := 0 }

/-- Concrete trainer for the C4 witness: stride 2. -/
def trainerC4 : Trainer :=
  { params := [], lambdas := [], emaDecay := none, ema := none,
    ema_restore_params := none, stride_apply := 2, hasScheduler := false,
    schedulerSteps := 0 }

lemma copy_into_length (ps es : List ℚ) : (copy_into ps es).length = ps.length := by
  induction ps generalizing es with
  | nil => cases es <;> rfl
  | cons p ps ih => cases es with
    | nil => rfl
    | cons e es => simp [copy_into, ih]

lemma copy_into_of_length_eq (ps es : List ℚ) (h : ps.length = es.length) :
    copy_into ps es = es := by
  induction ps generalizing es with
  | nil => cases es with
    | nil => rfl
    | cons e es => simp at h
  | cons p ps ih => cases es with
    | nil => simp at h
    | cons e es =>
      simp only [List.length_cons, Nat.add_right_cancel_iff] at h
      simp [copy_into, ih es h]

lemma apply_ema_params_length (t : Trainer) :
    (t.apply_ema).params.length = t.params.length := by
  unfold Trainer.apply_ema
  cases t.ema with
  | none => rfl
  | some es => simp [copy_into_length]

/-- Claim C1: for a trainer whose parameters do not change in between,
`apply_ema` followed immediately by `ema_restore` leaves every model parameter
identical to its value before the `apply_ema` call and clears the restore
buffer.  The hypothesis is the program invariant that the restore buffer is
only ever populated while the EMA shadow is set (the buffer is written only by
`apply_ema`, which requires `self.ema is not None`, and `train` clears the
buffer before unsetting the shadow); under it, when the shadow is unset both
calls are no-ops and the identity holds trivially. -/
theorem ema_apply_restore_round_trip (t : Trainer)
    (h : t.ema = none → t.ema_restore_params = none) :
    (t.apply_ema.ema_restore).params = t.params ∧
      (t.apply_ema.ema_restore).ema_restore_params = none := by
  cases hema : t.ema with
  | none =>
      have hbuf := h hema
      unfold Trainer.apply_ema Trainer.ema_restore
      rw [hema]
      simp only
      rw [hbuf]
      exact ⟨rfl, hbuf⟩
  | some es =>
      unfold Trainer.apply_ema Trainer.ema_restore
      rw [hema]
      simp only
      constructor
      · exact copy_into_of_length_eq _ _ (copy_into_length t.params es)
      · trivial

/-- Witness for C1 at a concrete trainer with shadow and buffer both set. -/
theorem ema_apply_restore_round_trip_witness :
    ({ params := [2, 5], lambdas := [], emaDecay := some 1, ema := some [3, 7],
       ema_restore_params := some [9, 9], stride_apply := 1,
       hasScheduler := false, schedulerSteps := 0 : Trainer }.apply_ema.ema_restore).params
        = [2, 5] ∧
    ({ params := [2, 5], lambdas := [], emaDecay := some 1, ema := some [3, 7],
       ema_restore_params := some [9, 9], stride_apply := 1,
       hasScheduler := false, schedulerSteps := 0 : Trainer }.apply_ema.ema_restore).ema_restore_params
        = none :=
  ema_apply_restore_round_trip _ (fun hc => Option.noConfusion hc)

lemma spec_total_getD (lams : List ℚ) (hls : List (Option ℚ)) :
    (spec_total lams hls).getD 0 = (loss_values lams hls).sum := by
  induction lams generalizing hls with
  | nil => cases hls <;> simp [spec_total, loss_values]
  | cons lam lams ih =>
      cases hls with
      | nil => simp [spec_total, loss_values]
      | cons l hls =>
          cases l with
          | none => simpa [spec_total, loss_values] using ih hls
          | some v =>
              simp only [spec_total, loss_values, List.zip_cons_cons, List.filterMap_cons,
                Option.map_some, Option.getD_some, List.sum_cons]
              rw [ih hls]
              rfl

lemma total_loss_eq_spec_total (lams : List ℚ) (hls : List (Option ℚ)) :
    total_loss lams hls = spec_total lams hls := by
  induction lams generalizing hls with
  | nil => cases hls <;> simp [total_loss, spec_total, loss_values]
  | cons lam lams ih =>
      cases hls with
      | nil => simp [total_loss, spec_total, loss_values]
      | cons l hls =>
          cases l with
          | none =>
              have hlv : loss_values (lam :: lams) (none :: hls) = loss_values lams hls := by
                simp [loss_values]
              simp only [total_loss, hlv, spec_total]
              exact ih hls
          | some v =>
              have hlv : loss_values (lam :: lams) (some v :: hls) =
                  lam * v :: loss_values lams hls := by
                simp [loss_values]
              simp only [total_loss, hlv, spec_total]
              rw [if_neg (List.cons_ne_nil _ _)]
              rw [List.sum_cons, ← spec_total_getD]

lemma spec_total_eq_none_iff (lams : List ℚ) (hls : List (Option ℚ))
    (h : lams.length = hls.length) :
    spec_total lams hls = none ↔ ∀ l ∈ hls, l = none := by
  induction lams generalizing hls with
  | nil =>
      cases hls with
      | nil => simp [spec_total]
      | cons l hls => simp at h
  | cons lam lams ih =>
      cases hls with
      | nil => simp at h
      | cons l hls =>
          simp only [List.length_cons, Nat.add_right_cancel_iff] at h
          cases l with
          | none => simp [spec_total, ih hls h]
          | some v => simp [spec_total]

/-- Claim C2: when the per-head structure is well formed (one loss functor,
one output and one target group per head), `Trainer.loss` fails if and only if
the flattened sub-loss count differs from `len(self.lambdas)`; the failure is
the assert, raised before any total is computed. -/
theorem loss_fails_iff_lambda_mismatch {α β : Type} (t : Trainer)
    (lossFns : List (α → β → List (Option ℚ))) (outputs : List α) (targets : List β)
    (h1 : lossFns.length = outputs.length) (h2 : targets.length = outputs.length) :
    (∃ e, t.loss lossFns outputs targets = Except.error e) ↔
      t.lambdas.length ≠ (head_losses_of lossFns outputs targets).length := by
  unfold Trainer.loss
  rw [if_pos h1]
  by_cases hl : t.lambdas.length = (head_losses_of lossFns outputs targets).length
  · rw [if_pos hl]
    simp [hl]
  · rw [if_neg hl]
    simp [hl]

/-- Witness for C2: one head producing two sub-losses against a single weight
fails; against two weights it succeeds. -/
theorem loss_fails_iff_lambda_mismatch_witness :
    ((∃ e, ({ params := [], lambdas := [1], emaDecay := none, ema := none,
              ema_restore_params := none, stride_apply := 1, hasScheduler := false,
              schedulerSteps := 0 : Trainer }).loss
        [fun (_ : Unit) (_ : Unit) => [some (2:ℚ), some 3]] [()] [()] = Except.error e) ↔
      ([(1:ℚ)].length ≠
        (head_losses_of [fun (_ : Unit) (_ : Unit) => [some (2:ℚ), some 3]] [()] [()]).length)) :=
  loss_fails_iff_lambda_mismatch _ _ _ _ rfl rfl

/-- Claim C3: under the precondition that the per-head structure is well formed
and the flattened sub-loss count equals `len(self.lambdas)`, `Trainer.loss`
returns the total `sum of lambda_i * head_loss_i over all non-null entries`
(expressed by the spec-side `spec_total`), and the total is null if and only if
every sub-loss entry is null. -/
theorem loss_total_correct {α β : Type} (t : Trainer)
    (lossFns : List (α → β → List (Option ℚ))) (outputs : List α) (targets : List β)
    (h1 : lossFns.length = outputs.length) (h2 : targets.length = outputs.length)
    (h3 : t.lambdas.length = (head_losses_of lossFns outputs targets).length) :
    t.loss lossFns outputs targets =
      Except.ok (spec_total t.lambdas (head_losses_of lossFns outputs targets),
                 head_losses_of lossFns outputs targets) ∧
    (spec_total t.lambdas (head_losses_of lossFns outputs targets) = none ↔
      ∀ l ∈ head_losses_of lossFns outputs targets, l = none) := by
  constructor
  · unfold Trainer.loss
    rw [if_pos h1, if_pos h3, total_loss_eq_spec_total]
  · exact spec_total_eq_none_iff _ _ h3

/-- Witness for C3, the spec's scenario: 1 head, sub-losses `[2, 3]`, weights
`[0.5, 1]`; the total evaluates to `0.5*2 + 1*3 = 4`. -/
theorem loss_total_correct_witness :
    (trainerC3.loss [fun (_ : Unit) (_ : Unit) => [some (2:ℚ), some 3]] [()] [()] =
        Except.ok (spec_total trainerC3.lambdas
            (head_losses_of [fun (_ : Unit) (_ : Unit) => [some (2:ℚ), some 3]] [()] [()]),
          head_losses_of [fun (_ : Unit) (_ : Unit) => [some (2:ℚ), some 3]] [()] [()]) ∧
      (spec_total trainerC3.lambdas
          (head_losses_of [fun (_ : Unit) (_ : Unit) => [some (2:ℚ), some 3]] [()] [()]) = none ↔
        ∀ l ∈ head_losses_of [fun (_ : Unit) (_ : Unit) => [some (2:ℚ), some 3]] [()] [()],
          l = none)) ∧
    spec_total [(1:ℚ)/2, 1] [some 2, some 3] = some 4 := by
  constructor
  · exact loss_total_correct trainerC3 _ _ _ rfl rfl rfl
  · show spec_total [(1:ℚ)/2, 1] [some 2, some 3] = some 4
    simp only [spec_total, Option.getD_some, Option.getD_none]
    norm_num

/-- Counterexample to claim C6 as stated: one loss functor and one model
output but TWO per-head target groups — a count mismatch — and yet
`Trainer.loss` does not fail: Python's `zip` silently truncates the extra
target group (line 100), both asserts pass, and a loss value is returned. -/
theorem target_mismatch_not_fatal :
    ([(), ()] : List Unit).length ≠ ([()] : List Unit).length ∧
    trainerC6.loss [fun (_ : Unit) (_ : Unit) => [(none : Option ℚ)]] [()] [(), ()] =
      Except.ok (none, [none]) := by
  exact ⟨by decide, rfl⟩

/-- Claim C6 as amended: a mismatch between the number of loss-producing heads
and the number of model outputs is fatal and fails immediately, before any
loss value is returned; a target-group count mismatch is not directly checked
(the extra or missing target groups are silently dropped by `zip`, and can
only fail indirectly through the sub-loss/lambda count assert). -/
theorem head_output_mismatch_fatal {α β : Type} (t : Trainer)
    (lossFns : List (α → β → List (Option ℚ))) (outputs : List α) (targets : List β)
    (h : lossFns.length ≠ outputs.length) :
    t.loss lossFns outputs targets =
      Except.error "AssertionError: len(self.losses) == len(outputs)" := by
  unfold Trainer.loss
  rw [if_neg h]

/-- Witness for the amended C6: zero loss functors against one output fails. -/
theorem head_output_mismatch_fatal_witness :
    trainerC6.loss ([] : List (Unit → Unit → List (Option ℚ))) [()] [()] =
      Except.error "AssertionError: len(self.losses) == len(outputs)" :=
  head_output_mismatch_fatal trainerC6 [] [()] [()] (by decide)

lemma step_ema_of_ema_none (t : Trainer) (h : t.ema = none) : t.step_ema = t := by
  unfold Trainer.step_ema
  rw [h]

lemma step_ema_params (t : Trainer) : t.step_ema.params = t.params := by
  unfold Trainer.step_ema
  cases t.ema <;> rfl

lemma step_ema_emaDecay (t : Trainer) : t.step_ema.emaDecay = t.emaDecay := by
  unfold Trainer.step_ema
  cases t.ema <;> rfl

lemma step_ema_ema_some (t : Trainer) (es : List ℚ) (h : t.ema = some es) :
    t.step_ema.ema = some ((t.params.zip es).map
      (fun pe => pe.2 * (1 - t.emaDecay.getD 0) + t.emaDecay.getD 0 * pe.1)) := by
  unfold Trainer.step_ema
  rw [h]

lemma emaEntry_step_ema (t : Trainer) (es : List ℚ) (h : t.ema = some es)
    (i : Nat) (hi : i < es.length) (hip : i < t.params.length) :
    emaEntry t.step_ema i =
      emaEntry t i * (1 - t.emaDecay.getD 0) + t.emaDecay.getD 0 * paramEntry t i := by
  unfold emaEntry paramEntry
  rw [step_ema_ema_some t es h, h]
  simp only [Option.getD_some]
  have hz : i < (t.params.zip es).length := by
    rw [List.length_zip]
    omega
  rw [List.getD_eq_getElem _ _ (by simpa using hz), List.getElem_map, List.getElem_zip,
    List.getD_eq_getElem _ _ hi, List.getD_eq_getElem _ _ hip]

lemma step_ema_iter_inv (t : Trainer) (k : Nat) :
    (Trainer.step_ema^[k] t).params = t.params ∧
    (Trainer.step_ema^[k] t).emaDecay = t.emaDecay := by
  induction k with
  | zero => exact ⟨rfl, rfl⟩
  | succ k ih =>
      rw [Function.iterate_succ_apply']
      exact ⟨(step_ema_params _).trans ih.1, (step_ema_emaDecay _).trans ih.2⟩

lemma step_ema_iter_ema (t : Trainer) (es : List ℚ) (hes : t.ema = some es)
    (hlen : es.length = t.params.length) (k : Nat) :
    ∃ esk : List ℚ, (Trainer.step_ema^[k] t).ema = some esk ∧
      esk.length = t.params.length := by
  induction k with
  | zero => exact ⟨es, hes, hlen⟩
  | succ k ih =>
      obtain ⟨esk, hk, hlk⟩ := ih
      rw [Function.iterate_succ_apply']
      refine ⟨_, step_ema_ema_some _ esk hk, ?_⟩
      rw [List.length_map, List.length_zip, (step_ema_iter_inv t k).1, hlk]
      exact Nat.min_self _

/-- Claim C7: when the shadow is set (paired entrywise with the parameters),
one `step_ema` call replaces each shadow entry by
`shadow_old * (1 - decay) + decay * parameter`; with constant parameters and
`0 < decay < 1`, each iterate's distance to the parameter value is scaled by
`1 - decay`, hence moves monotonically toward it; when the shadow is unset,
`step_ema` is a no-op. -/
theorem step_ema_recurrence_monotone (t : Trainer) (d : ℚ)
    (hd : t.emaDecay = some d) (h0 : 0 < d) (h1 : d < 1)
    (es : List ℚ) (hes : t.ema = some es) (hlen : es.length = t.params.length) :
    (∀ u : Trainer, u.ema = none → u.step_ema = u) ∧
    (∀ i, i < t.params.length →
      emaEntry t.step_ema i = emaEntry t i * (1 - d) + d * paramEntry t i) ∧
    (∀ k i, i < t.params.length →
      |emaEntry (Trainer.step_ema^[k + 1] t) i - paramEntry t i| =
        (1 - d) * |emaEntry (Trainer.step_ema^[k] t) i - paramEntry t i| ∧
      |emaEntry (Trainer.step_ema^[k + 1] t) i - paramEntry t i| ≤
        |emaEntry (Trainer.step_ema^[k] t) i - paramEntry t i|) := by
  refine ⟨step_ema_of_ema_none, ?_, ?_⟩
  · intro i hip
    have := emaEntry_step_ema t es hes i (by omega) hip
    rwa [hd, Option.getD_some] at this
  · intro k i hip
    obtain ⟨esk, hk, hlk⟩ := step_ema_iter_ema t es hes hlen k
    have hinv := step_ema_iter_inv t k
    have hrec : emaEntry (Trainer.step_ema^[k + 1] t) i =
        emaEntry (Trainer.step_ema^[k] t) i * (1 - d) + d * paramEntry t i := by
      rw [Function.iterate_succ_apply']
      have hstep := emaEntry_step_ema (Trainer.step_ema^[k] t) esk hk i
        (by omega) (by rw [hinv.1]; exact hip)
      rw [hinv.2, hd, Option.getD_some] at hstep
      rw [hstep]
      congr 1
      unfold paramEntry
      rw [hinv.1]
    have heq : |emaEntry (Trainer.step_ema^[k + 1] t) i - paramEntry t i| =
        (1 - d) * |emaEntry (Trainer.step_ema^[k] t) i - paramEntry t i| := by
      rw [hrec, show emaEntry (Trainer.step_ema^[k] t) i * (1 - d) + d * paramEntry t i -
            paramEntry t i
          = (1 - d) * (emaEntry (Trainer.step_ema^[k] t) i - paramEntry t i) by ring,
        abs_mul, abs_of_pos (by linarith : (0:ℚ) < 1 - d)]
    refine ⟨heq, ?_⟩
    rw [heq]
    exact mul_le_of_le_one_left (abs_nonneg _) (by linarith)

/-- Witness for C7 at `trainerC7`, entry 0, iterate 1 (and the no-op part at
`trainerC7b`). -/
theorem step_ema_recurrence_monotone_witness :
    trainerC7b.step_ema = trainerC7b ∧
    (emaEntry trainerC7.step_ema 0 =
      emaEntry trainerC7 0 * (1 - 1/2) + 1/2 * paramEntry trainerC7 0) ∧
    (|emaEntry (Trainer.step_ema^[0 + 1] trainerC7) 0 - paramEntry trainerC7 0| =
        (1 - 1/2) * |emaEntry (Trainer.step_ema^[0] trainerC7) 0 - paramEntry trainerC7 0| ∧
      |emaEntry (Trainer.step_ema^[0 + 1] trainerC7) 0 - paramEntry trainerC7 0| ≤
        |emaEntry (Trainer.step_ema^[0] trainerC7) 0 - paramEntry trainerC7 0|) := by
  have h := step_ema_recurrence_monotone trainerC7 (1/2) rfl (by norm_num) (by norm_num)
    [0] rfl rfl
  exact ⟨h.1 trainerC7b rfl, h.2.1 0 (by decide), h.2.2 0 0 (by decide)⟩

/-- Claim C9: for every epoch number, `write_model` with `final = true` writes
to exactly the fixed output path, and with `final = false` and epoch 7 it
writes to the fixed path suffixed `.epoch007`. -/
theorem write_model_filename_spec :
    (∀ (out : String) (epoch : Nat), write_model_filename out epoch true = out) ∧
    (∀ out : String, write_model_filename out 7 false = out ++ ".epoch007") := by
  constructor
  · intro out epoch
    rfl
  · intro out
    rfl

lemma mapM_pydiv_ok (n : Nat) (hn : n ≠ 0) :
    ∀ ls : List ℚ, ls.mapM (fun l => pydiv l n) = Except.ok (ls.map (fun l => l / (n : ℚ))) := by
  intro ls
  induction ls with
  | nil => rfl
  | cons l ls ih =>
      rw [List.mapM_cons, ih]
      unfold pydiv
      rw [if_neg hn]
      rfl

lemma train_summary_ok (acc : EpochAcc) (n : Nat) (hn : n ≠ 0) :
    train_summary acc n =
      Except.ok (acc.epoch_loss / n, acc.head_epoch_losses.map (fun l => l / (n : ℚ))) := by
  unfold train_summary
  rw [show pydiv acc.epoch_loss n = Except.ok (acc.epoch_loss / n) from by
        unfold pydiv
        rw [if_neg hn],
    mapM_pydiv_ok n hn]

lemma val_ok (t : Trainer) (scenes : List BatchRes) (hn : scenes.length ≠ 0) :
    t.val scenes =
      Except.ok ((val_accum (0, t.lambdas.map (fun _ => 0)) scenes).1 / scenes.length,
        (val_accum (0, t.lambdas.map (fun _ => 0)) scenes).2.map
          (fun l => l / (scenes.length : ℚ))) := by
  unfold Trainer.val
  rw [show pydiv (val_accum (0, t.lambdas.map (fun _ => 0)) scenes).1 scenes.length =
        Except.ok ((val_accum (0, t.lambdas.map (fun _ => 0)) scenes).1 / scenes.length) from by
        unfold pydiv
        rw [if_neg hn],
    mapM_pydiv_ok _ hn]

/-- Claim C10 (implicit): `train` and `val` on an empty dataset (zero batches)
fail with `ZeroDivisionError` when computing the epoch-summary means, instead
of emitting a summary record; on a non-empty dataset the divisions by the
batch count are well defined. -/
theorem epoch_summary_div_by_zero (t : Trainer) (optStepF : List ℚ → List ℚ) :
    (∃ e, train_summary (t.train optStepF []) ([] : List BatchRes).length = Except.error e) ∧
    (∃ e, t.val [] = Except.error e) ∧
    (∀ scenes : List BatchRes, scenes ≠ [] →
      (∃ v, train_summary (t.train optStepF scenes) scenes.length = Except.ok v) ∧
      (∃ v, t.val scenes = Except.ok v)) := by
  refine ⟨⟨_, rfl⟩, ⟨_, rfl⟩, ?_⟩
  intro scenes hs
  have hn : scenes.length ≠ 0 := by
    simpa [List.length_eq_zero] using hs
  exact ⟨⟨_, train_summary_ok _ _ hn⟩, ⟨_, val_ok t scenes hn⟩⟩

/-- Witness for C10 at a concrete trainer, with the non-empty case
instantiated at a one-batch dataset. -/
theorem epoch_summary_div_by_zero_witness :
    (∃ e, train_summary (trainerC6.train (fun ps => ps) [])
        ([] : List BatchRes).length = Except.error e) ∧
    (∃ e, trainerC6.val [] = Except.error e) ∧
    ((∃ v, train_summary (trainerC6.train (fun ps => ps) [(none, [])])
        ([(none, [])] : List BatchRes).length = Except.ok v) ∧
      (∃ v, trainerC6.val [(none, [])] = Except.ok v)) := by
  have h := epoch_summary_div_by_zero trainerC6 (fun ps => ps)
  exact ⟨h.1, h.2.1, h.2.2 [(none, [])] (List.cons_ne_nil _ _)⟩

/-! ## Scheduler fast-forward (claim C5) -/

lemma ema_restore_fields (t : Trainer) :
    t.ema_restore.ema = t.ema ∧ t.ema_restore.lambdas = t.lambdas ∧
    t.ema_restore.emaDecay = t.emaDecay ∧ t.ema_restore.stride_apply = t.stride_apply ∧
    t.ema_restore.hasScheduler = t.hasScheduler ∧
    t.ema_restore.schedulerSteps = t.schedulerSteps ∧
    t.ema_restore.ema_restore_params = none := by
  unfold Trainer.ema_restore
  cases h : t.ema_restore_params with
  | none => exact ⟨rfl, rfl, rfl, rfl, rfl, rfl, h⟩
  | some rs => exact ⟨rfl, rfl, rfl, rfl, rfl, rfl, rfl⟩

lemma sched_step_fields (t : Trainer) :
    (sched_step t).1.ema = t.ema ∧ (sched_step t).1.lambdas = t.lambdas ∧
    (sched_step t).1.emaDecay = t.emaDecay ∧
    (sched_step t).1.stride_apply = t.stride_apply ∧
    (sched_step t).1.hasScheduler = t.hasScheduler ∧
    (sched_step t).1.params = t.params ∧
    (sched_step t).1.ema_restore_params = t.ema_restore_params := by
  unfold sched_step
  by_cases h : t.hasScheduler = true <;> simp [h]

lemma sched_step_of_hasScheduler (t : Trainer) (h : t.hasScheduler = true) :
    (sched_step t).1.schedulerSteps = t.schedulerSteps + 1 ∧
    (sched_step t).2 = [Ev.schedStep] := by
  unfold sched_step
  rw [if_pos h]
  exact ⟨rfl, rfl⟩

lemma fast_forward_sched (n : Nat) :
    ∀ t : Trainer, t.hasScheduler = true →
      (fast_forward t n).1.schedulerSteps = t.schedulerSteps + n ∧
      (fast_forward t n).1.hasScheduler = true ∧
      (fast_forward t n).2 = List.replicate n Ev.schedStep := by
  induction n with
  | zero => exact fun t h => ⟨rfl, h, rfl⟩
  | succ n ih =>
      intro t h
      have hs := sched_step_of_hasScheduler t h
      have hf := sched_step_fields t
      have hih := ih (sched_step t).1 (hf.2.2.2.2.1.trans h)
      simp only [fast_forward]
      refine ⟨?_, hih.2.1, ?_⟩
      · rw [hih.1, hs.1]
        omega
      · rw [hih.2.2, hs.2, List.replicate_succ]
        rfl

/-- Counterexample to claim C5 as stated: resuming with `start_epoch = 5`
(6 total epochs, one training batch per epoch), the scheduler has been
advanced SIX times at the moment the first training batch of the run executes
— the five fast-forward steps of `loop` plus the per-epoch step that `train`
issues before its batch loop (line 172) — not five. -/
theorem sched_steps_at_first_batch_six :
    sched_steps_before_first_batch
        (trainerC5.loop (fun ps => ps) [(none, [])] 6 5).2 = 6 ∧
    sched_steps_before_first_batch
        (trainerC5.loop (fun ps => ps) [(none, [])] 6 5).2 ≠ 5 := by
  exact ⟨by decide, by decide⟩

lemma epoch_start_fields (t : Trainer) :
    (epoch_start t).1.ema = none ∧
    (epoch_start t).1.ema_restore_params = none ∧
    (epoch_start t).1.params = t.ema_restore.params ∧
    (epoch_start t).1.emaDecay = t.emaDecay ∧
    (epoch_start t).1.stride_apply = t.stride_apply ∧
    (epoch_start t).1.hasScheduler = t.hasScheduler ∧
    (epoch_start t).1.lambdas = t.lambdas := by
  have hs := sched_step_fields { t.ema_restore with ema := none }
  have hr := ema_restore_fields t
  exact ⟨hs.1, hs.2.2.2.2.2.2.trans hr.2.2.2.2.2.2, hs.2.2.2.2.2.1,
    hs.2.2.1.trans hr.2.2.1, hs.2.2.2.1.trans hr.2.2.2.1,
    hs.2.2.2.2.1.trans hr.2.2.2.2.1, hs.2.1.trans hr.2.1⟩

lemma epoch_start_trace_sched (t : Trainer) (h : t.hasScheduler = true) :
    (epoch_start t).2 = [Ev.schedStep, Ev.zeroGradInit] := by
  have hu : ({ t.ema_restore with ema := none } : Trainer).hasScheduler = true :=
    (ema_restore_fields t).2.2.2.2.1.trans h
  simp only [epoch_start]
  rw [(sched_step_of_hasScheduler _ hu).2]
  rfl

lemma train_batch_trace_head (t : Trainer) (f : List ℚ → List ℚ) (i : Nat)
    (r : BatchRes) (a : Bool) :
    ∃ x, (t.train_batch f i r a).2 = Ev.forward i :: x := by
  simp only [Trainer.train_batch]
  cases a <;> exact ⟨_, rfl⟩

lemma batch_events_head (f : List ℚ → List ℚ) (tr : Trainer) (i : Nat) (r : BatchRes) :
    ∃ x, batch_events f tr i r = Ev.forward i :: x := by
  obtain ⟨x, hx⟩ := train_batch_trace_head tr f i r (i % tr.stride_apply == 0)
  simp only [batch_events]
  rw [hx]
  exact ⟨_, rfl⟩

lemma train_batches_trace (f : List ℚ → List ℚ) (bs : List BatchRes) :
    ∀ (acc : EpochAcc) (i : Nat),
      ∃ d, (train_batches f acc i bs).trace = acc.trace ++ d := by
  induction bs with
  | nil =>
      intro acc i
      exact ⟨[], (List.append_nil _).symm⟩
  | cons b bs ih =>
      intro acc i
      obtain ⟨d, hd⟩ := ih (train_loop_body f acc i b) (i + 1)
      refine ⟨batch_events f acc.tr i b ++ d, ?_⟩
      have hb : (train_loop_body f acc i b).trace =
          acc.trace ++ batch_events f acc.tr i b := rfl
      calc (train_batches f acc i (b :: bs)).trace
          = (train_batches f (train_loop_body f acc i b) (i + 1) bs).trace := rfl
        _ = (train_loop_body f acc i b).trace ++ d := hd
        _ = acc.trace ++ batch_events f acc.tr i b ++ d := by rw [hb]
        _ = acc.trace ++ (batch_events f acc.tr i b ++ d) := List.append_assoc _ _ _

lemma train_trace_structure (t : Trainer) (f : List ℚ → List ℚ) (b : BatchRes)
    (bs : List BatchRes) :
    ∃ x : List Ev, (t.train f (b :: bs)).trace =
      (epoch_start t).2 ++ (Ev.forward 0 :: x) := by
  obtain ⟨y, hy⟩ := batch_events_head f (epoch_start t).1 0 b
  obtain ⟨d, hd⟩ := train_batches_trace f bs (train_loop_body f (init_acc t) 0 b) 1
  refine ⟨y ++ (d ++ [Ev.applyEmaEnd]), ?_⟩
  have h1 : (t.train f (b :: bs)).trace =
      (train_batches f (train_loop_body f (init_acc t) 0 b) 1 bs).trace ++
        [Ev.applyEmaEnd] := rfl
  have h2 : (train_loop_body f (init_acc t) 0 b).trace =
      (epoch_start t).2 ++ batch_events f (epoch_start t).1 0 b := rfl
  rw [h1, hd, h2, hy]
  simp [List.append_assoc]

lemma takeWhile_append_of_all (p : Ev → Bool) (l1 l2 : List Ev)
    (h : ∀ x ∈ l1, p x = true) :
    (l1 ++ l2).takeWhile p = l1 ++ l2.takeWhile p := by
  induction l1 with
  | nil => rfl
  | cons a l ih =>
      rw [List.cons_append, List.takeWhile_cons, if_pos (h a (List.mem_cons_self a l)),
        ih (fun x hx => h x (List.mem_cons_of_mem a hx)), List.cons_append]

/-- Claim C5 as amended: when `loop` resumes with a scheduler present, the
fast-forward alone advances the scheduler exactly `start_epoch` steps, but at
the moment the first training batch of the run executes the scheduler has been
advanced exactly `start_epoch + 1` steps — `train` issues one more scheduler
step before its batch loop (line 172). -/
theorem sched_steps_at_first_batch (t : Trainer) (optStepF : List ℚ → List ℚ)
    (scenes : List BatchRes) (epochs start_epoch : Nat)
    (hsched : t.hasScheduler = true) (hne : scenes ≠ [])
    (hlt : start_epoch < epochs) :
    (fast_forward t start_epoch).1.schedulerSteps = t.schedulerSteps + start_epoch ∧
    sched_steps_before_first_batch (t.loop optStepF scenes epochs start_epoch).2 =
      start_epoch + 1 := by
  have hff := fast_forward_sched start_epoch t hsched
  refine ⟨hff.1, ?_⟩
  obtain ⟨b, bs, rfl⟩ : ∃ b bs, scenes = b :: bs := by
    cases scenes with
    | nil => exact absurd rfl hne
    | cons b bs => exact ⟨b, bs, rfl⟩
  obtain ⟨m, hm⟩ : ∃ m, epochs - start_epoch = m + 1 := ⟨epochs - start_epoch - 1, by omega⟩
  have hloop : (t.loop optStepF (b :: bs) epochs start_epoch).2 =
      (fast_forward t start_epoch).2 ++
        (loop_epochs optStepF (b :: bs) (fast_forward t start_epoch).1
          (epochs - start_epoch)).2 := rfl
  obtain ⟨x, hx⟩ := train_trace_structure (fast_forward t start_epoch).1 optStepF b bs
  have hle : (loop_epochs optStepF (b :: bs) (fast_forward t start_epoch).1 (m + 1)).2 =
      ((fast_forward t start_epoch).1.train optStepF (b :: bs)).trace ++
        (loop_epochs optStepF (b :: bs)
          ((fast_forward t start_epoch).1.train optStepF (b :: bs)).tr m).2 := rfl
  have hes := epoch_start_trace_sched (fast_forward t start_epoch).1 hff.2.1
  rw [hloop, hm, hle, hx, hes, hff.2.2]
  have hassoc : List.replicate start_epoch Ev.schedStep ++
      (([Ev.schedStep, Ev.zeroGradInit] ++ (Ev.forward 0 :: x)) ++
        (loop_epochs optStepF (b :: bs)
          ((fast_forward t start_epoch).1.train optStepF (b :: bs)).tr m).2) =
      (List.replicate start_epoch Ev.schedStep ++ [Ev.schedStep, Ev.zeroGradInit]) ++
        (Ev.forward 0 :: (x ++ (loop_epochs optStepF (b :: bs)
          ((fast_forward t start_epoch).1.train optStepF (b :: bs)).tr m).2)) := by
    simp [List.append_assoc]
  rw [hassoc]
  have hall : ∀ e ∈ List.replicate start_epoch Ev.schedStep ++
      [Ev.schedStep, Ev.zeroGradInit], (!isForwardEv e) = true := by
    intro e he
    rcases List.mem_append.1 he with h | h
    · rw [List.eq_of_mem_replicate h]
      rfl
    · rcases List.mem_cons.1 h with h | h
      · rw [h]
        rfl
      · rcases List.mem_cons.1 h with h | h
        · rw [h]
          rfl
        · exact absurd h (List.not_mem_nil e)
  unfold sched_steps_before_first_batch
  rw [takeWhile_append_of_all _ _ _ hall,
    show (Ev.forward 0 :: (x ++ (loop_epochs optStepF (b :: bs)
        ((fast_forward t start_epoch).1.train optStepF (b :: bs)).tr m).2)).takeWhile
        (fun e => !isForwardEv e) = [] from by
      rw [List.takeWhile_cons]
      rfl,
    List.append_nil, List.count_append, List.count_replicate_self]
  rfl

/-- Witness for the amended C5 at the concrete C5 trainer. -/
theorem sched_steps_at_first_batch_witness :
    (fast_forward trainerC5 5).1.schedulerSteps = trainerC5.schedulerSteps + 5 ∧
    sched_steps_before_first_batch
        (trainerC5.loop (fun ps => ps) [(none, [])] 6 5).2 = 5 + 1 :=
  sched_steps_at_first_batch trainerC5 (fun ps => ps) [(none, [])] 6 5 rfl
    (List.cons_ne_nil _ _) (by decide)

/-! ## EMA lifecycle within an epoch (claim C8) -/

lemma emaDecayTruthy_eq (t u : Trainer) (h : t.emaDecay = u.emaDecay) :
    emaDecayTruthy t = emaDecayTruthy u := by
  unfold emaDecayTruthy
  rw [h]

lemma apply_ema_ema (t : Trainer) : t.apply_ema.ema = t.ema := by
  unfold Trainer.apply_ema
  cases h : t.ema with
  | none => exact h
  | some es => rfl

lemma train_batch_ema_none (t : Trainer) (f : List ℚ → List ℚ) (i : Nat)
    (r : BatchRes) (a : Bool) (h : t.ema = none) :
    (t.train_batch f i r a).1.ema = none ∧
    (t.train_batch f i r a).1.emaDecay = t.emaDecay ∧
    (t.train_batch f i r a).1.params = (if a = true then f t.params else t.params) := by
  simp only [Trainer.train_batch]
  cases a with
  | false => exact ⟨h, rfl, rfl⟩
  | true =>
      have h2 : ({ t with params := f t.params } : Trainer).ema = none := h
      rw [if_pos rfl, step_ema_of_ema_none _ h2]
      exact ⟨h2, rfl, rfl⟩

/-- Claim C8: in a training epoch with EMA enabled, the EMA shadow is unset at
the start of the epoch — the pending swap from the previous epoch having been
restored first and the restore buffer cleared — it remains unset through the
whole first batch (forward/backward and gradient step, for either value of
`apply_gradients`; batch 0 always applies, since `0 % stride == 0`), and only
after the first batch completes does the loop body seed it as a copy of the
then-current model parameters (which `train` carries through its final
`apply_ema` in a one-batch epoch). -/
theorem ema_epoch_lifecycle (t : Trainer) (f : List ℚ → List ℚ) (b : BatchRes)
    (hema : emaDecayTruthy t = true) :
    ((epoch_start t).1.ema = none ∧ (epoch_start t).1.ema_restore_params = none ∧
      (epoch_start t).1.params = t.ema_restore.params) ∧
    (∀ a : Bool, ((epoch_start t).1.train_batch f 0 b a).1.ema = none) ∧
    ((0 % (epoch_start t).1.stride_apply == 0) = true) ∧
    ((train_loop_body f (init_acc t) 0 b).tr.ema =
      some (((epoch_start t).1.train_batch f 0 b
        (0 % (epoch_start t).1.stride_apply == 0)).1.params)) ∧
    ((t.train f [b]).tr.ema =
      some (((epoch_start t).1.train_batch f 0 b
        (0 % (epoch_start t).1.stride_apply == 0)).1.params)) := by
  have es := epoch_start_fields t
  have hb := train_batch_ema_none (epoch_start t).1 f 0 b
    (0 % (epoch_start t).1.stride_apply == 0) es.1
  have hcond : ((((epoch_start t).1.train_batch f 0 b
      (0 % (epoch_start t).1.stride_apply == 0)).1.ema).isNone &&
      emaDecayTruthy ((epoch_start t).1.train_batch f 0 b
        (0 % (epoch_start t).1.stride_apply == 0)).1) = true := by
    rw [hb.1, emaDecayTruthy_eq _ t (hb.2.1.trans es.2.2.2.1), hema]
    rfl
  have hseed : (train_loop_body f (init_acc t) 0 b).tr.ema =
      some (((epoch_start t).1.train_batch f 0 b
        (0 % (epoch_start t).1.stride_apply == 0)).1.params) := by
    simp only [train_loop_body, init_acc]
    rw [if_pos hcond]
  refine ⟨⟨es.1, es.2.1, es.2.2.1⟩,
    fun a => (train_batch_ema_none (epoch_start t).1 f 0 b a es.1).1,
    by rw [Nat.zero_mod]; rfl, hseed, ?_⟩
  have htr : (t.train f [b]).tr = (train_loop_body f (init_acc t) 0 b).tr.apply_ema := rfl
  rw [htr, apply_ema_ema, hseed]

/-- Witness for C8 at `trainerC8`, with the first-batch part instantiated at
`apply_gradients = true`. -/
theorem ema_epoch_lifecycle_witness :
    ((epoch_start trainerC8).1.ema = none ∧
      (epoch_start trainerC8).1.ema_restore_params = none ∧
      (epoch_start trainerC8).1.params = trainerC8.ema_restore.params) ∧
    (((epoch_start trainerC8).1.train_batch (fun ps => ps) 0
      (none, []) true).1.ema = none) ∧
    ((0 % (epoch_start trainerC8).1.stride_apply == 0) = true) ∧
    ((train_loop_body (fun ps => ps) (init_acc trainerC8) 0 (none, [])).tr.ema =
      some (((epoch_start trainerC8).1.train_batch (fun ps => ps) 0 (none, [])
        (0 % (epoch_start trainerC8).1.stride_apply == 0)).1.params)) ∧
    ((trainerC8.train (fun ps => ps) [(none, [])]).tr.ema =
      some (((epoch_start trainerC8).1.train_batch (fun ps => ps) 0 (none, [])
        (0 % (epoch_start trainerC8).1.stride_apply == 0)).1.params)) := by
  have h := ema_epoch_lifecycle trainerC8 (fun ps => ps) (none, [])
    (by simp [emaDecayTruthy, trainerC8])
  exact ⟨h.1, h.2.1 true, h.2.2.1, h.2.2.2.1, h.2.2.2.2⟩

/-! ## Gradient accumulation stride (claim C4) -/

lemma step_ema_stride (t : Trainer) : t.step_ema.stride_apply = t.stride_apply := by
  unfold Trainer.step_ema
  cases t.ema <;> rfl

lemma train_batch_stride (t : Trainer) (f : List ℚ → List ℚ) (i : Nat)
    (r : BatchRes) (a : Bool) :
    (t.train_batch f i r a).1.stride_apply = t.stride_apply := by
  simp only [Trainer.train_batch]
  cases a with
  | false => rfl
  | true =>
      rw [if_pos rfl]
      exact step_ema_stride _

lemma train_loop_body_stride (f : List ℚ → List ℚ) (acc : EpochAcc) (i : Nat)
    (b : BatchRes) :
    (train_loop_body f acc i b).tr.stride_apply = acc.tr.stride_apply := by
  simp only [train_loop_body]
  split
  · exact train_batch_stride _ _ _ _ _
  · exact train_batch_stride _ _ _ _ _

lemma applyEv_mem_batch_events (f : List ℚ → List ℚ) (tr : Trainer) (i j : Nat)
    (r : BatchRes) (c : Nat → Ev)
    (hc : c = Ev.optStep ∨ c = Ev.zeroGrad ∨ c = Ev.stepEmaCall) :
    (c j ∈ batch_events f tr i r) ↔ (j = i ∧ i % tr.stride_apply = 0) := by
  rcases hc with hc | hc | hc <;> subst hc <;>
    cases ha : (i % tr.stride_apply == 0) <;>
      cases hr : r.1.isSome <;>
        · simp only [batch_events, Trainer.train_batch, ha, hr]
          split <;> simp_all

lemma applyEv_mem_train_batches (f : List ℚ → List ℚ) (c : Nat → Ev)
    (hc : c = Ev.optStep ∨ c = Ev.zeroGrad ∨ c = Ev.stepEmaCall) (bs : List BatchRes) :
    ∀ (acc : EpochAcc) (i j : Nat),
      (c j ∈ (train_batches f acc i bs).trace ↔
        (c j ∈ acc.trace ∨
          (i ≤ j ∧ j < i + bs.length ∧ j % acc.tr.stride_apply = 0))) := by
  induction bs with
  | nil =>
      intro acc i j
      simp only [train_batches, List.length_nil]
      constructor
      · exact Or.inl
      · rintro (h | ⟨h1, h2, h3⟩)
        · exact h
        · omega
  | cons b bs ih =>
      intro acc i j
      have hstep := ih (train_loop_body f acc i b) (i + 1) j
      have htr : (train_loop_body f acc i b).trace =
          acc.trace ++ batch_events f acc.tr i b := rfl
      have hst := train_loop_body_stride f acc i b
      rw [show train_batches f acc i (b :: bs) =
          train_batches f (train_loop_body f acc i b) (i + 1) bs from rfl]
      rw [hstep, htr, hst, List.mem_append, applyEv_mem_batch_events f acc.tr i j b c hc]
      simp only [List.length_cons]
      constructor
      · rintro ((h | ⟨hj, hm⟩) | ⟨h1, h2, h3⟩)
        · exact Or.inl h
        · subst hj
          exact Or.inr ⟨Nat.le_refl _, by omega, hm⟩
        · exact Or.inr ⟨by omega, by omega, h3⟩
      · rintro (h | ⟨h1, h2, h3⟩)
        · exact Or.inl (Or.inl h)
        · by_cases hji : j = i
          · subst hji
            exact Or.inl (Or.inr ⟨rfl, h3⟩)
          · exact Or.inr ⟨by omega, by omega, h3⟩

lemma epoch_start_trace_events (t : Trainer) :
    ∀ e ∈ (epoch_start t).2, e = Ev.schedStep ∨ e = Ev.zeroGradInit := by
  intro e he
  simp only [epoch_start] at he
  rcases List.mem_append.1 he with h | h
  · unfold sched_step at h
    by_cases hs : ({ t.ema_restore with ema := none } : Trainer).hasScheduler = true
    · rw [if_pos hs] at h
      left
      simpa using h
    · rw [if_neg hs] at h
      simp at h
  · right
    simpa using h

/-- Claim C4: in a training epoch with gradient-accumulation stride `k > 0`,
the optimizer step, the in-batch zeroing of the gradient buffers, and the
`step_ema` call occur on exactly those batches whose index satisfies
`batchIndex % k == 0`; in particular the gradient buffers are never zeroed on
any other batch of the epoch (the only other `zero_grad` is the one issued
before the batch loop, recorded as the distinct event `zeroGradInit`). -/
theorem apply_events_iff_stride (t : Trainer) (f : List ℚ → List ℚ)
    (scenes : List BatchRes) (k : Nat) (hk : t.stride_apply = k) (h0 : 0 < k)
    (i : Nat) (hi : i < scenes.length) :
    (Ev.optStep i ∈ (t.train f scenes).trace ↔ i % k = 0) ∧
    (Ev.zeroGrad i ∈ (t.train f scenes).trace ↔ i % k = 0) ∧
    (Ev.stepEmaCall i ∈ (t.train f scenes).trace ↔ i % k = 0) := by
  subst hk
  have hbase : ∀ c : Nat → Ev,
      (c = Ev.optStep ∨ c = Ev.zeroGrad ∨ c = Ev.stepEmaCall) →
      (c i ∈ (t.train f scenes).trace ↔ i % t.stride_apply = 0) := by
    intro c hc
    have htrace : (t.train f scenes).trace =
        (train_batches f (init_acc t) 0 scenes).trace ++ [Ev.applyEmaEnd] := rfl
    rw [htrace, List.mem_append,
      applyEv_mem_train_batches f c hc scenes (init_acc t) 0 i]
    have hnotbase : c i ∉ (init_acc t).trace := by
      intro h
      have h2 := epoch_start_trace_events t (c i) h
      rcases hc with hc | hc | hc <;> subst hc <;>
        rcases h2 with h2 | h2 <;> exact Ev.noConfusion h2
    have hnotend : c i ∉ [Ev.applyEmaEnd] := by
      intro h
      have h2 : c i = Ev.applyEmaEnd := by simpa using h
      rcases hc with hc | hc | hc <;> subst hc <;> exact Ev.noConfusion h2
    have hstr : (init_acc t).tr.stride_apply = t.stride_apply :=
      (epoch_start_fields t).2.2.2.2.1
    rw [hstr]
    constructor
    · rintro ((h | ⟨h1, h2, h3⟩) | h)
      · exact absurd h hnotbase
      · exact h3
      · exact absurd h hnotend
    · intro hm
      exact Or.inl (Or.inr ⟨Nat.zero_le _, by omega, hm⟩)
  exact ⟨hbase _ (Or.inl rfl), hbase _ (Or.inr (Or.inl rfl)),
    hbase _ (Or.inr (Or.inr rfl))⟩

/-- Witness for C4 at stride 2, three batches, batch index 1. -/
theorem apply_events_iff_stride_witness :
    (Ev.optStep 1 ∈ (trainerC4.train (fun ps => ps)
        [(none, []), (none, []), (none, [])]).trace ↔ 1 % 2 = 0) ∧
    (Ev.zeroGrad 1 ∈ (trainerC4.train (fun ps => ps)
        [(none, []), (none, []), (none, [])]).trace ↔ 1 % 2 = 0) ∧
    (Ev.stepEmaCall 1 ∈ (trainerC4.train (fun ps => ps)
        [(none, []), (none, []), (none, [])]).trace ↔ 1 % 2 = 0) :=
  apply_events_iff_stride trainerC4 (fun ps => ps)
    [(none, []), (none, []), (none, [])] 2 rfl (by decide) 1 (by decide)
